import Mathlib

/-!
Shallow embedding of `s3vfs.go` (package s3vfs): an adapter exposing an S3
bucket as a hierarchical filesystem, with a range-cached reader
(`explicitFetchFile`) and a directory-inference `lstat`.

HTTP, signing and the `s3util` client are external collaborators: they are
modelled as an abstract `Backend` record of response functions, and every
network request the adapter issues is recorded in an explicit trace so that
"no network call" / "exactly one fetch" claims are statable.  Byte contents
are irrelevant to the claims, so streams carry only their length; times are
`Nat` with `0` standing for Go's zero `time.Time`.
-/

namespace S3v

/-! ### Go path helpers (`path.Clean`, `path.Join`, `path.Base`,
`strings.TrimPrefix`), ported over `List Char` so everything evaluates in
the kernel.  `filepath.Clean` on a slash-separated path agrees with
`path.Clean`. -/

/-- Split a character list on `'/'` (like `strings.Split(s, "/")`). -/
def splitSlashAux : List Char → List Char → List (List Char)
  | [], cur => [cur.reverse]
  | c :: cs, cur =>
    if c = '/' then cur.reverse :: splitSlashAux cs []
    else splitSlashAux cs (c :: cur)

def splitSlash (cs : List Char) : List (List Char) :=
  splitSlashAux cs []

/-- The segment-stack core of Go `path.Clean`: drop empty and `.` segments,
let `..` pop the previous segment (or be dropped at the root of a rooted
path, or kept at the head of a relative path). -/
def cleanSegs : List (List Char) → Bool → List (List Char) → List (List Char)
  | [], _, acc => acc.reverse
  | s :: rest, rooted, acc =>
    if s = [] ∨ s = ['.'] then cleanSegs rest rooted acc
    else if s = ['.', '.'] then
      match acc with
      | a :: accTl =>
        if a = ['.', '.'] then cleanSegs rest rooted (['.', '.'] :: a :: accTl)
        else cleanSegs rest rooted accTl
      | [] =>
        if rooted then cleanSegs rest rooted []
        else cleanSegs rest rooted [['.', '.']]
    else cleanSegs rest rooted (s :: acc)

/-- Join segments with `'/'`. -/
def joinSlash : List (List Char) → List Char
  | [] => []
  | [s] => s
  | s :: rest => s ++ '/' :: joinSlash rest

/-- Go `path.Clean` (= `filepath.Clean` for slash paths on unix). -/
def pathClean (p : String) : String :=
  match p.data with
  | [] => "."
  | c :: cs =>
    let rooted := c = '/'
    let segs := cleanSegs (splitSlash (c :: cs)) rooted []
    let out := joinSlash segs
    if rooted then String.mk ('/' :: out)
    else if out = [] then "."
    else String.mk out

/-- Go `path.Join` restricted to two elements (as used by `fs.url`):
non-empty elements joined with `/`, then cleaned; all-empty gives `""`. -/
def pathJoin (a b : String) : String :=
  if a = "" ∧ b = "" then ""
  else if a = "" then pathClean b
  else if b = "" then pathClean a
  else pathClean (a ++ "/" ++ b)

/-- Go `path.Base`: last element after trailing slashes are removed;
`""` gives `"."`, an all-slash path gives `"/"`. -/
def pathBase (p : String) : String :=
  match p.data with
  | [] => "."
  | cs =>
    match cs.reverse.dropWhile (· = '/') with
    | [] => "/"
    | rcs => String.mk (rcs.takeWhile (· ≠ '/')).reverse

/-- Go `strings.TrimPrefix(s, "/")`. -/
def trimLeadingSlash (s : String) : String :=
  match s.data with
  | '/' :: rest => String.mk rest
  | _ => s

/-- The normalization at the top of `S3FS.lstat` (line 245):
`strings.TrimPrefix(filepath.Clean(name), "/")`. -/
def normalizeName (name : String) : String :=
  trimLeadingSlash (pathClean name)

/-! ### Data model -/

/-- `os.ModeDir` bit (1 << 31). -/
def modeDir : Nat := 2 ^ 31

/-- The adapter's `fileInfo` (sans the opaque `sys` field; times are `Nat`,
`0` = Go's zero `time.Time`). -/
structure FileInfo where
  name : String
  size : Int
  mode : Nat
  modTime : Nat
deriving DecidableEq

/-- The part of `S3FS` the embedding needs: the bucket URL's path component
(scheme and host are constant across all requests and elided). -/
structure S3FS where
  bucketPath : String
deriving DecidableEq

/-- `fs.url(path)`: `path.Join(fs.bucket.Path, path)` resolved against the
bucket URL; modelled as the joined path. -/
def S3FS.urlPath (fs : S3FS) (path : String) : String :=
  pathJoin fs.bucketPath path

/-- Outcome of `ioutil.ReadAll` on the body returned by `s3util.Open`:
a byte count, or a read error. -/
structure GetResp where
  readAll : Except String Nat

/-- Response to the `lstat` prefix-listing GET: HTTP status, the decoded
`Contents` keys (or an XML decode error), the `Body.Close` outcome, and the
raw body (used by `newRespError` on non-200). -/
structure ListResp where
  status : Nat
  contents : Except String (List String)
  closeErr : Option String
  body : String

/-- Response to the `lstat` HEAD probe: status, `Content-Length`,
parsed `Last-Modified` (`none` = unparsable, Go ignores the parse error and
keeps the zero time), and the raw body. -/
structure HeadResp where
  status : Nat
  contentLength : Int
  lastModified : Option Nat
  body : String

/-- Body returned by `s3util.Delete`: its unread size and the outcome of
closing it. -/
structure DeleteBody where
  size : Nat
  closeErr : Option String

/-- The external object-store client: each field maps a request to the
response the backend would give.  `get` takes the resolved URL and the
`Range` header value (`""` = no range). -/
structure Backend where
  get : String → String → Except String GetResp
  list : String → Nat → Except String ListResp
  head : String → Except String HeadResp
  create : String → Except String Unit
  delete : String → Except String DeleteBody
  newFile : String → Except String (Except String (List FileInfo))

/-- A ranged (or whole-object) GET issued through `fs.open`, as recorded in
the network trace: resolved URL and `Range` header value. -/
structure FetchOp where
  url : String
  rng : String
deriving DecidableEq

/-- A network request issued by `lstat`. -/
inductive NetOp where
  | list (pfx : String) (maxKeys : Nat)
  | head (url : String)
deriving DecidableEq

/-- An event of `S3FS.Remove`: the DELETE itself, a read of `n` bytes from
the response body, or closing the body. -/
inductive RemoveEvent where
  | delete (url : String)
  | readBody (n : Nat)
  | closeBody
deriving DecidableEq

/-- Errors surfaced by adapter operations: `pathError op path err` models
`&os.PathError{Op: op, Path: path, Err: err}`; `plain` is an error returned
without wrapping. -/
inductive AdapterErr where
  | pathError (op : String) (path : String) (err : String)
  | plain (msg : String)
deriving DecidableEq

/-- Is this error wrapped in an `os.PathError`? -/
def AdapterErr.isWrapped : AdapterErr → Bool
  | .pathError _ _ _ => true
  | .plain _ => false

/-- Errors produced inside `S3FS.lstat` before the `Lstat` wrapper. -/
inductive LstatErr where
  | netErr (msg : String)
  | respErr (status : Nat) (body : String)
  | decodeErr (msg : String)
  | closeErr (msg : String)
  | notExist
deriving DecidableEq

/-- Rendering of an `LstatErr` as Go's `error.Error()` string (the `%q`
quoting of `respError.Error` is elided). -/
def LstatErr.msg : LstatErr → String
  | .netErr m => m
  | .respErr s b => s!"unwanted http status {s}: {b}"
  | .decodeErr m => m
  | .closeErr m => m
  | .notExist => "file does not exist"

/-! ### `fs.open` and the range-cached reader (`explicitFetchFile`) -/

/-- `fs.open(name, rangeHeader)` (lines 101-124): GET the object (with the
range header injected by `rangeTransport` when non-empty; a 206 status is
normalized to 200 inside the client, so `get` already reports success),
wrap an open error in an `os.PathError` with op `"open"`, read the whole
body (a `ReadAll` error is returned unwrapped), and hand back the byte
count of the in-memory stream.  The issued GET is recorded in the trace. -/
def fsOpen (be : Backend) (fs : S3FS) (name rng : String) :
    Except AdapterErr Nat × List FetchOp :=
  let u := fs.urlPath name
  match be.get u rng with
  | .error e => (.error (.pathError "open" u e), [⟨u, rng⟩])
  | .ok r =>
    match r.readAll with
    | .error e => (.error (.plain e), [⟨u, rng⟩])
    | .ok n => (.ok n, [⟨u, rng⟩])

/-- The backing stream held by the reader: `nopCloser{bytes.NewReader(b)}`
— only the byte count and the read cursor matter to the claims. -/
structure RC where
  size : Nat
  pos : Int
deriving DecidableEq

/-- `bytes.Reader.Seek` to an absolute position: negative is an error
(cursor unchanged), otherwise the cursor moves and the position is
returned. -/
def RC.seekAbs (rc : RC) (abs : Int) : Except String Int × RC :=
  if abs < 0 then (.error "bytes.Reader.Seek: negative position", rc)
  else (.ok abs, { rc with pos := abs })

/-- `bytes.Reader.Seek`. -/
def RC.seek (rc : RC) (offset : Int) (whence : Int) : Except String Int × RC :=
  if whence = 0 then rc.seekAbs offset
  else if whence = 1 then rc.seekAbs (rc.pos + offset)
  else if whence = 2 then rc.seekAbs ((rc.size : Int) + offset)
  else (.error "bytes.Reader.Seek: invalid whence", rc)

/-- `bytes.Reader.Read` into a buffer of length `plen`: at or past the end
it returns `(0, io.EOF)`, otherwise it copies as much as is available. -/
def RC.read (rc : RC) (plen : Nat) : (Nat × Option String) × RC :=
  if (rc.size : Int) ≤ rc.pos then ((0, some "EOF"), rc)
  else
    let n := min plen ((rc.size : Int) - rc.pos).toNat
    ((n, none), { rc with pos := rc.pos + (n : Int) })

/-- `explicitFetchFile` (lines 130-136). -/
structure EFF where
  name : String
  fs : S3FS
  startByte : Int
  endByte : Int
  rc : Option RC
  autofetch : Bool
deriving DecidableEq

/-- `explicitFetchFile.isFetched` (lines 159-161). -/
def EFF.isFetched (f : EFF) (start stop : Int) : Bool :=
  f.rc.isSome && decide (start ≤ stop) && decide (f.startByte ≤ start)
    && decide (stop ≤ f.endByte)

/-- `explicitFetchFile.Close` (lines 203-212).  The stream is always a
`nopCloser`, whose `Close` never fails, so only the state change is
modelled: release the stream and reset the window. -/
def EFF.close (f : EFF) : EFF :=
  match f.rc with
  | some _ => { f with rc := none, startByte := 0, endByte := 0 }
  | none => f

/-- `explicitFetchFile.Seek` (lines 185-201): no stream → usage error;
end-relative → `errRelOfs`; absolute offsets are translated by the window
start before delegating and the returned position translated back. -/
def EFF.seek (f : EFF) (offset : Int) (whence : Int) : Except String Int × EFF :=
  match f.rc with
  | none => (.error "s3vfs: must call Fetch before Seek", f)
  | some rc =>
    if whence = 2 then
      (.error "s3vfs: seek to offset relative to end of file is not supported", f)
    else
      let offset0 := if whence = 0 then offset - f.startByte else offset
      match rc.seek offset0 whence with
      | (.error e, rc1) => (.error e, { f with rc := some rc1 })
      | (.ok n, rc1) => (.ok (n + f.startByte), { f with rc := some rc1 })

/-- `explicitFetchFile.Fetch` (lines 163-183): no-op when `isFetched`;
otherwise close the current stream, issue a ranged GET with header
`bytes=start-stop`, and on success install the new stream with the window
set to `start`/`stop`. -/
def EFF.fetch (be : Backend) (f : EFF) (start stop : Int) :
    Except AdapterErr Unit × EFF × List FetchOp :=
  if f.isFetched start stop then (.ok (), f, [])
  else
    let f1 := f.close
    let rng := s!"bytes={start}-{stop}"
    match fsOpen be f1.fs f1.name rng with
    | (.error e, t) => (.error e, f1, t)
    | (.ok sz, t) =>
      (.ok (), { f1 with rc := some ⟨sz, 0⟩, startByte := start, endByte := stop }, t)

/-- `explicitFetchFile.Read` (lines 140-157): get the current offset via
`Seek(0, 1)` (which fails when no stream is open), and if the implied span
is not fetched either fail (autofetch off) or `Fetch(start, stop + (stop -
start)*4)` before delegating to the backing stream.  Result is Go's
`(n, err)` pair; the two `none`-stream delegation branches are unreachable
and modelled as a nil-dereference panic. -/
def EFF.read (be : Backend) (f : EFF) (plen : Nat) :
    (Nat × Option AdapterErr) × EFF × List FetchOp :=
  match EFF.seek f 0 1 with
  | (.error e, f1) => ((0, some (.plain e)), f1, [])
  | (.ok ofs, f1) =>
    let start := ofs
    let stop := ofs + (plen : Int)
    if f1.isFetched start stop then
      match f1.rc with
      | none => ((0, some (.plain "panic: nil reader")), f1, [])
      | some rc =>
        let r := rc.read plen
        ((r.1.1, r.1.2.map .plain), { f1 with rc := some r.2 }, [])
    else
      if f1.autofetch then
        let fetchEnd := stop + (stop - start) * 4
        match EFF.fetch be f1 start fetchEnd with
        | (.error e, f2, t) => ((0, some e), f2, t)
        | (.ok _, f2, t) =>
          match f2.rc with
          | none => ((0, some (.plain "panic: nil reader")), f2, t)
          | some rc =>
            let r := rc.read plen
            ((r.1.1, r.1.2.map .plain), { f2 with rc := some r.2 }, t)
      else
        let sB := f1.startByte
        let eB := f1.endByte
        ((0, some (.plain
            s!"s3vfs: range {start}-{stop} not fetched ({sB}-{eB} fetched; offset {ofs})")),
          f1, [])

/-- `S3FS.OpenFetcher` (lines 126-128): always succeeds, no network I/O,
and the reader starts with autofetch on and an empty window. -/
def S3FS.openFetcher (fs : S3FS) (name : String) :
    Except AdapterErr EFF × List FetchOp :=
  (.ok { name := name, fs := fs, startByte := 0, endByte := 0,
         rc := none, autofetch := true }, [])

/-! ### Adapter operations -/

/-- `S3FS.Open` (lines 62-64): whole-object open, no range header. -/
def S3FS.Open (be : Backend) (fs : S3FS) (name : String) :
    Except AdapterErr Nat × List FetchOp :=
  fsOpen be fs name ""

/-- `S3FS.lstat` (lines 244-323): normalize; root (`"."`) is a synthetic
directory with no network call; otherwise a prefix listing with
`max-keys=1` (one key ⇒ directory), falling back to a HEAD probe of the
exact key.  The trace records the requests issued. -/
def S3FS.lstat (be : Backend) (fs : S3FS) (name : String) :
    Except LstatErr FileInfo × List NetOp :=
  let n := normalizeName name
  if n = "." then
    (.ok { name := ".", size := 0, mode := modeDir, modTime := 0 }, [])
  else
    let t0 : List NetOp := [.list (n ++ "/") 1]
    match be.list (n ++ "/") 1 with
    | .error e => (.error (.netErr e), t0)
    | .ok resp =>
      if resp.status ≠ 200 then (.error (.respErr resp.status resp.body), t0)
      else
        match resp.contents with
        | .error e => (.error (.decodeErr e), t0)
        | .ok keys =>
          match resp.closeErr with
          | some e => (.error (.closeErr e), t0)
          | none =>
            if keys.length = 1 then
              (.ok { name := n, size := 0, mode := modeDir, modTime := 0 }, t0)
            else
              let u := fs.urlPath n
              let t1 := t0 ++ [.head u]
              match be.head u with
              | .error e => (.error (.netErr e), t1)
              | .ok h =>
                if h.status = 404 then (.error .notExist, t1)
                else if h.status ≠ 200 then (.error (.respErr h.status h.body), t1)
                else
                  (.ok { name := n, size := h.contentLength, mode := 0,
                         modTime := h.lastModified.getD 0 }, t1)

/-- `S3FS.Lstat` (lines 236-242): wrap any `lstat` error in an
`os.PathError` with op `"lstat"` and the resolved URL. -/
def S3FS.Lstat (be : Backend) (fs : S3FS) (name : String) :
    Except AdapterErr FileInfo × List NetOp :=
  match S3FS.lstat be fs name with
  | (.error e, t) => (.error (.pathError "lstat" (fs.urlPath name) e.msg), t)
  | (.ok fi, t) => (.ok fi, t)

/-- `S3FS.Stat` (lines 325-327): identical to `Lstat`. -/
def S3FS.Stat (be : Backend) (fs : S3FS) (name : String) :
    Except AdapterErr FileInfo × List NetOp :=
  S3FS.Lstat be fs name

/-- `S3FS.ReadDir` (lines 214-234): `s3util.NewFile` errors are wrapped
with op `"readdir"`, `Readdir` errors are returned unwrapped, and each
entry's name is reduced to its base path segment. -/
def S3FS.ReadDir (be : Backend) (fs : S3FS) (path : String) :
    Except AdapterErr (List FileInfo) :=
  let u := fs.urlPath path
  match be.newFile u with
  | .error e => .error (.pathError "readdir" u e)
  | .ok r =>
    match r with
    | .error e => .error (.plain e)
    | .ok fis =>
      .ok (fis.map fun fi =>
        { name := pathBase fi.name, size := fi.size, mode := fi.mode,
          modTime := fi.modTime })

/-- `S3FS.Create` (lines 331-337): wrap a creation error with op
`"create"` and the resolved URL. -/
def S3FS.Create (be : Backend) (fs : S3FS) (path : String) :
    Except AdapterErr Unit :=
  match be.create (fs.urlPath path) with
  | .error e => .error (.pathError "create" (fs.urlPath path) e)
  | .ok _ => .ok ()

/-- `S3FS.Remove` (lines 350-362): issue the DELETE; on success close the
response body (never reading from it) and fold a close error into the
result.  Errors are returned without any `os.PathError` wrapping.  The
second component is the event trace. -/
def S3FS.Remove (be : Backend) (fs : S3FS) (name : String) :
    Option AdapterErr × List RemoveEvent :=
  let u := fs.urlPath name
  match be.delete u with
  | .error e => (some (.plain e), [.delete u])
  | .ok b =>
    match b.closeErr with
    | some e => (some (.plain e), [.delete u, .closeBody])
    | none => (none, [.delete u, .closeBody])

/-- Bytes read from the delete response body over a `Remove` event trace
(the "drained" amount). -/
def drainedBytes (es : List RemoveEvent) : Nat :=
  es.foldl (fun a e => match e with | .readBody n => a + n | _ => a) 0

/-! ### Concrete fixtures used by witnesses and counterexamples -/

/-- A bucket whose URL path component is empty, so resolved URLs coincide
with the object keys. -/
def fs0 : S3FS := ⟨""⟩

/-- A backend on which every request fails at the network level (`delete`
fails with a distinct message so the error's origin is visible). -/
def beErr : Backend where
  get _ _ := .error "network down"
  list _ _ := .error "network down"
  head _ := .error "network down"
  create _ := .error "network down"
  delete _ := .error "boom"
  newFile _ := .error "network down"

/-- A backend where every request succeeds: ranged GETs yield a 100-byte
stream, prefix listings are empty, HEAD reports a 7-byte object modified at
time 5, and DELETE yields a 3-byte response body. -/
def beOkEmpty : Backend where
  get _ _ := .ok ⟨.ok 100⟩
  list _ _ := .ok ⟨200, .ok [], none, ""⟩
  head _ := .ok ⟨200, 7, some 5, ""⟩
  create _ := .ok ()
  delete _ := .ok ⟨3, none⟩
  newFile _ := .ok (.ok [])

/-- Like `beOkEmpty` but every prefix listing reports one key, so every
non-root path looks like a directory even though HEAD also succeeds. -/
def beList1 : Backend where
  get _ _ := .ok ⟨.ok 100⟩
  list _ _ := .ok ⟨200, .ok ["a/x"], none, ""⟩
  head _ := .ok ⟨200, 7, some 5, ""⟩
  create _ := .ok ()
  delete _ := .ok ⟨3, none⟩
  newFile _ := .ok (.ok [])

/-- The reader `OpenFetcher("f")` returns: empty window, no stream,
autofetch on. -/
def effInit : EFF :=
  { name := "f", fs := fs0, startByte := 0, endByte := 0,
    rc := none, autofetch := true }

/-- A reader holding the window `[0, 10)` over a 10-byte stream with the
cursor at 0. -/
def effWin : EFF :=
  { name := "f", fs := fs0, startByte := 0, endByte := 10,
    rc := some ⟨10, 0⟩, autofetch := true }

/-- The single ranged GET that an autofetching `Read` of `plen` bytes at
absolute offset `o` must issue: `Fetch(o, o + plen + 4*plen)`, i.e. header
`bytes=o-(o+5*plen)`. -/
def autoFetchOp (f : EFF) (o : Int) (plen : Nat) : FetchOp :=
  let fetchEnd := o + (plen : Int) + 4 * (plen : Int)
  ⟨f.fs.urlPath f.name, s!"bytes={o}-{fetchEnd}"⟩

/-! ### Helper lemmas -/

lemma isFetched_iff (f : EFF) (s e : Int) :
    f.isFetched s e = true ↔
      (f.rc.isSome = true ∧ s ≤ e ∧ f.startByte ≤ s ∧ e ≤ f.endByte) := by
  simp [EFF.isFetched, and_assoc]

lemma close_fs (f : EFF) : f.close.fs = f.fs := by
  unfold EFF.close; cases f.rc <;> rfl

lemma close_name (f : EFF) : f.close.name = f.name := by
  unfold EFF.close; cases f.rc <;> rfl

lemma close_rc (f : EFF) : f.close.rc = none := by
  cases hrc : f.rc <;> simp [EFF.close, hrc]

/-- Widening the requested end of an unfetched span keeps it unfetched. -/
lemma isFetched_grow_false (f : EFF) (o a b : Int)
    (hab : a ≤ b) (ha : 0 ≤ a)
    (h : f.isFetched o (o + a) = false) : f.isFetched o (o + b) = false := by
  rw [Bool.eq_false_iff, Ne, isFetched_iff] at h ⊢
  intro ⟨h1, h2, h3, h4⟩
  exact h ⟨h1, by omega, h3, by omega⟩

/-- When the span is unfetched, `Fetch` issues exactly the one ranged GET
`bytes=start-stop` against the object's URL. -/
lemma fetch_trace (be : Backend) (f : EFF) (start stop : Int)
    (h : f.isFetched start stop = false) :
    (EFF.fetch be f start stop).2.2 =
      [⟨f.fs.urlPath f.name, s!"bytes={start}-{stop}"⟩] := by
  unfold EFF.fetch fsOpen
  rw [h]
  simp only [Bool.false_eq_true, if_false, close_fs, close_name]
  cases hg : be.get (f.fs.urlPath f.name) s!"bytes={start}-{stop}" with
  | error e => simp
  | ok r => cases hr : r.readAll <;> simp [hr]

/-- When the span is unfetched and the GET fails, `Fetch` fails and leaves
the closed (empty-window) state. -/
lemma fetch_result (be : Backend) (f : EFF) (start stop : Int)
    (h : f.isFetched start stop = false) :
    (∀ e, be.get (f.fs.urlPath f.name) s!"bytes={start}-{stop}" = .error e →
      EFF.fetch be f start stop =
        (.error (.pathError "open" (f.fs.urlPath f.name) e), f.close,
          [⟨f.fs.urlPath f.name, s!"bytes={start}-{stop}"⟩])) ∧
    (∀ r, be.get (f.fs.urlPath f.name) s!"bytes={start}-{stop}" = .ok r →
      (∀ e, r.readAll = .error e →
        EFF.fetch be f start stop =
          (.error (.plain e), f.close,
            [⟨f.fs.urlPath f.name, s!"bytes={start}-{stop}"⟩])) ∧
      (∀ sz, r.readAll = .ok sz →
        EFF.fetch be f start stop =
          (.ok (), { f.close with rc := some ⟨sz, 0⟩, startByte := start, endByte := stop },
            [⟨f.fs.urlPath f.name, s!"bytes={start}-{stop}"⟩]))) := by
  unfold EFF.fetch fsOpen
  rw [h]
  simp only [Bool.false_eq_true, if_false, close_fs, close_name]
  refine ⟨fun e hg => by rw [hg], fun r hg => ⟨fun e hr => ?_, fun sz hr => ?_⟩⟩ <;>
    simp [hg, hr]

/-- On any reachable state (`rc = none` only with a zero window, which is
what construction, `Close` and failed `Fetch` produce), `Close` leaves the
zero window. -/
lemma close_window (f : EFF)
    (hinv : f.rc = none → f.startByte = 0 ∧ f.endByte = 0) :
    f.close.startByte = 0 ∧ f.close.endByte = 0 := by
  cases hrc : f.rc with
  | none =>
    have h := hinv hrc
    simp [EFF.close, hrc, h.1, h.2]
  | some rc => simp [EFF.close, hrc]

/-- `Read` on a reader with no backing stream fails at the initial
`Seek(0, 1)` with the usage error, issuing no fetch. -/
lemma read_no_stream (be : Backend) (f : EFF) (plen : Nat) (h : f.rc = none) :
    (EFF.read be f plen).1.2 = some (.plain "s3vfs: must call Fetch before Seek") ∧
    (EFF.read be f plen).2.2 = [] := by
  constructor <;> simp [EFF.read, EFF.seek, h]

/-- `isFetched` ignores the stream's cursor: replacing the stream keeps the
verdict as long as one is present. -/
lemma isFetched_rc_irrel (f : EFF) (rc rc' : RC) (h : f.rc = some rc)
    (s e : Int) :
    ({ f with rc := some rc' } : EFF).isFetched s e = f.isFetched s e := by
  simp [EFF.isFetched, h]

/-! ### Claims -/

/-- C10: `OpenFetcher(name)` always returns a reader and a nil error,
performs no network I/O (empty trace), and the reader starts with autofetch
enabled and an empty fetch window (no backing stream, `startByte =
endByte = 0`). -/
theorem c10_openFetcher_initial (fs : S3FS) (name : String) :
    ∃ f : EFF, S3FS.openFetcher fs name = (.ok f, []) ∧
      f.autofetch = true ∧ f.rc = none ∧ f.startByte = 0 ∧ f.endByte = 0 ∧
      f.name = name ∧ f.fs = fs :=
  ⟨_, rfl, rfl, rfl, rfl, rfl, rfl, rfl⟩

/-- C7: `Seek` fails with the usage error "must call Fetch before Seek"
whenever no fetch window is established, for every offset and whence; and
end-relative `Seek` (`whence = 2`) fails for every reader state. -/
theorem c7_seek_usage (f : EFF) (offset : Int) (whence : Int) :
    (f.rc = none →
      (EFF.seek f offset whence).1 = .error "s3vfs: must call Fetch before Seek") ∧
    (whence = 2 → ∃ e, (EFF.seek f offset whence).1 = .error e) := by
  constructor
  · intro h
    simp [EFF.seek, h]
  · intro h
    subst h
    cases hrc : f.rc with
    | none =>
      exact ⟨"s3vfs: must call Fetch before Seek", by simp [EFF.seek, hrc]⟩
    | some rc =>
      exact ⟨"s3vfs: seek to offset relative to end of file is not supported",
        by simp [EFF.seek, hrc]⟩

/-- C7 witness: on the fresh reader any seek fails with the usage error,
and on a reader with a window an end-relative seek fails. -/
theorem c7_seek_usage_w :
    (EFF.seek effInit 5 0).1 = .error "s3vfs: must call Fetch before Seek" ∧
    ∃ e, (EFF.seek effWin 0 2).1 = .error e :=
  ⟨(c7_seek_usage effInit 5 0).1 rfl, (c7_seek_usage effWin 0 2).2 rfl⟩

/-- C4 (code bug demonstration): the path `"/"` denotes the root, but
`filepath.Clean("/") = "/"` and trimming the leading slash gives `""`,
which fails the `name == "."` root check; `lstat` then issues a prefix
listing and a HEAD probe, and here classifies the root as a 7-byte *file*
instead of returning synthetic directory metadata with no network call. -/
theorem c4_lstat_root_slash_network :
    normalizeName "/" = "" ∧
    S3FS.lstat beOkEmpty fs0 "/" =
      (.ok ⟨"", 7, 0, 5⟩, [.list "/" 1, .head ""]) := by
  constructor
  · rfl
  · rfl

/-- C1 counterexample: on the reader just returned by `OpenFetcher` (no
window established) a `Read` does NOT fetch: `Read` first calls
`Seek(0, 1)` to learn the offset, which fails with the "must call Fetch
before Seek" usage error, so `Read` returns that error and the network
trace is empty — the claim requires exactly one `Fetch(o, fetchEnd)` here. -/
theorem c1_read_initial_no_fetch_cex :
    (EFF.read beErr effInit 5).1.2 =
      some (.plain "s3vfs: must call Fetch before Seek") ∧
    (EFF.read beErr effInit 5).2.2 = [] := by
  constructor
  · rfl
  · rfl

/-- C3 counterexample: `Fetch(0, 10)` sends the range header
`bytes=0-10` — under the inclusive convention the last byte requested is
`10`, i.e. `end`, not `end-1 = 9` as the claim states (one byte beyond the
half-open span is requested). -/
theorem c3_fetch_header_cex :
    (EFF.fetch beOkEmpty effInit 0 10).2.2 = [⟨"f", "bytes=0-10"⟩] ∧
    ("bytes=0-10" : String) ≠ "bytes=0-9" := by
  constructor
  · rfl
  · decide

/-- C8 counterexample: a failed `Remove` surfaces the backend error as-is
(`plain "boom"`), not wrapped in an `os.PathError` carrying the operation
name and resolved path. -/
theorem c8_remove_unwrapped_cex :
    (S3FS.Remove beErr fs0 "k").1 = some (.plain "boom") ∧
    AdapterErr.isWrapped (.plain "boom") = false := by
  constructor
  · rfl
  · rfl

/-- C2: if `Fetch(start, stop)` fails, the reader is left with an empty
window (`startByte = endByte = 0`, no backing stream) — the prior stream
was released (via `Close`) before the retrieval attempt — and every
subsequent `Read`, against any backend, fails with the usage error and
performs no fetch, rather than serving stale data.  The `hinv` hypothesis
is the reachable-state invariant: a stream-less reader has a zero window
(true at construction and preserved by every operation). -/
theorem c2_fetch_failure_empty_window (be : Backend) (f : EFF)
    (start stop : Int) (e : AdapterErr)
    (hinv : f.rc = none → f.startByte = 0 ∧ f.endByte = 0)
    (herr : (EFF.fetch be f start stop).1 = .error e) :
    (EFF.fetch be f start stop).2.1.rc = none ∧
    (EFF.fetch be f start stop).2.1.startByte = 0 ∧
    (EFF.fetch be f start stop).2.1.endByte = 0 ∧
    ∀ (be2 : Backend) (plen : Nat),
      (EFF.read be2 (EFF.fetch be f start stop).2.1 plen).1.2 =
        some (.plain "s3vfs: must call Fetch before Seek") ∧
      (EFF.read be2 (EFF.fetch be f start stop).2.1 plen).2.2 = [] := by
  have hnf : f.isFetched start stop = false := by
    cases hb : f.isFetched start stop with
    | false => rfl
    | true =>
      rw [show EFF.fetch be f start stop = (.ok (), f, []) by
        simp [EFF.fetch, hb]] at herr
      simp at herr
  have hpost : (EFF.fetch be f start stop).2.1 = f.close := by
    have h2 := fetch_result be f start stop hnf
    cases hg : be.get (f.fs.urlPath f.name) s!"bytes={start}-{stop}" with
    | error e2 => rw [h2.1 e2 hg]
    | ok r =>
      cases hr : r.readAll with
      | error e2 => rw [(h2.2 r hg).1 e2 hr]
      | ok sz =>
        rw [(h2.2 r hg).2 sz hr] at herr
        simp at herr
  rw [hpost]
  have hw := close_window f hinv
  exact ⟨close_rc f, hw.1, hw.2,
    fun be2 plen => read_no_stream be2 f.close plen (close_rc f)⟩

/-- C2 witness: on a reader holding `[0, 10)`, a `Fetch(20, 30)` against a
failing backend errors; afterwards the window is empty and a read fails
with the usage error. -/
theorem c2_fetch_failure_empty_window_w :
    (EFF.fetch beErr effWin 20 30).2.1.rc = none ∧
    (EFF.read beErr (EFF.fetch beErr effWin 20 30).2.1 4).1.2 =
      some (.plain "s3vfs: must call Fetch before Seek") := by
  have h := c2_fetch_failure_empty_window beErr effWin 20 30
      (.pathError "open" "f" "network down") (by decide) rfl
  exact ⟨h.1, (h.2.2.2 beErr 4).1⟩

/-- C3 (amended): `Fetch(start, stop)` is a no-op (success, no network
I/O, state unchanged) when the code's containment check `isFetched`
passes — a stream is present and `start ≤ stop`, `startByte ≤ start`,
`stop ≤ endByte`; otherwise it issues exactly one ranged retrieval whose
inclusive range header is `bytes=start-stop` (first byte `start`, last
byte `stop` — one byte past the half-open span `[start, stop)`), and on
success sets the window to exactly `[start, stop)` with a fresh stream at
position 0. -/
theorem c3_fetch_contract (be : Backend) (f : EFF) (start stop : Int) :
    (f.isFetched start stop = true → EFF.fetch be f start stop = (.ok (), f, [])) ∧
    (f.isFetched start stop = false →
      (EFF.fetch be f start stop).2.2 =
        [⟨f.fs.urlPath f.name, s!"bytes={start}-{stop}"⟩] ∧
      ∀ u : Unit, (EFF.fetch be f start stop).1 = .ok u →
        (EFF.fetch be f start stop).2.1.startByte = start ∧
        (EFF.fetch be f start stop).2.1.endByte = stop ∧
        ∃ sz, (EFF.fetch be f start stop).2.1.rc = some ⟨sz, 0⟩) := by
  constructor
  · intro ht
    simp [EFF.fetch, ht]
  · intro hnf
    refine ⟨fetch_trace be f start stop hnf, fun u hok => ?_⟩
    have h2 := fetch_result be f start stop hnf
    cases hg : be.get (f.fs.urlPath f.name) s!"bytes={start}-{stop}" with
    | error e =>
      rw [h2.1 e hg] at hok
      simp at hok
    | ok r =>
      cases hr : r.readAll with
      | error e =>
        rw [(h2.2 r hg).1 e hr] at hok
        simp at hok
      | ok sz =>
        rw [(h2.2 r hg).2 sz hr]
        exact ⟨rfl, rfl, sz, rfl⟩

/-- C3 witness: `Fetch(0, 10)` on the fresh reader issues the one GET with
header `bytes=0-10` and on success sets the window to `[0, 10)` with a
fresh stream. -/
theorem c3_fetch_contract_w :
    (EFF.fetch beOkEmpty effInit 0 10).2.2 =
      [⟨fs0.urlPath "f", s!"bytes={(0 : Int)}-{(10 : Int)}"⟩] ∧
    (EFF.fetch beOkEmpty effInit 0 10).2.1.startByte = 0 ∧
    (EFF.fetch beOkEmpty effInit 0 10).2.1.endByte = 10 ∧
    ∃ sz, (EFF.fetch beOkEmpty effInit 0 10).2.1.rc = some ⟨sz, 0⟩ := by
  have h := (c3_fetch_contract beOkEmpty effInit 0 10).2 (by decide)
  have h2 := h.2 () rfl
  exact ⟨h.1, h2.1, h2.2.1, h2.2.2⟩

/-- C9 counterexample: the delete response body here holds 3 unread bytes,
and `Remove` closes it having read 0 of them — the body is not "fully
drained" before the call completes. -/
theorem c9_remove_not_drained_cex :
    beOkEmpty.delete (fs0.urlPath "k") = .ok ⟨3, none⟩ ∧
    drainedBytes (S3FS.Remove beOkEmpty fs0 "k").2 = 0 ∧
    (3 : Nat) ≠ 0 := by
  refine ⟨rfl, rfl, by decide⟩

/-- C5: for a non-root path, if the `max-keys=1` prefix listing of
`p + "/"` succeeds (status 200, decodable, body closes) and is non-empty,
`lstat` classifies `p` as a directory of size 0 and returns after the one
listing request — the exact key is never probed, so a directory wins even
when an object also exists at key `p` (the conclusion holds for every
`head` response the backend might give).  `hmax` is the `ListByPrefix`
capability contract: at most `maxResults = 1` keys come back (the code
tests `len(Contents) == 1`, which under `hmax` is exactly non-emptiness). -/
theorem c5_lstat_dir_precedence (be : Backend) (fs : S3FS) (name : String)
    (resp : ListResp) (keys : List String)
    (hroot : normalizeName name ≠ ".")
    (hl : be.list (normalizeName name ++ "/") 1 = .ok resp)
    (hst : resp.status = 200)
    (hct : resp.contents = .ok keys)
    (hcl : resp.closeErr = none)
    (hmax : keys.length ≤ 1)
    (hne : keys ≠ []) :
    S3FS.lstat be fs name =
      (.ok ⟨normalizeName name, 0, modeDir, 0⟩,
        [.list (normalizeName name ++ "/") 1]) := by
  have hlen : keys.length = 1 := by
    have h0 : keys.length ≠ 0 := fun h => hne (List.length_eq_zero.mp h)
    omega
  simp [S3FS.lstat, hroot, hl, hst, hct, hcl, hlen]

/-- C5 witness: with one key under prefix `a/` and a HEAD that would also
report an object at key `a`, `Lstat("a")` reports a directory from the
listing alone. -/
theorem c5_lstat_dir_precedence_w :
    S3FS.lstat beList1 fs0 "a" =
      (.ok ⟨"a", 0, modeDir, 0⟩, [.list "a/" 1]) ∧
    ∃ h : HeadResp, beList1.head (fs0.urlPath "a") = .ok h ∧ h.status = 200 := by
  refine ⟨?_, ⟨⟨200, 7, some 5, ""⟩, rfl, rfl⟩⟩
  exact c5_lstat_dir_precedence beList1 fs0 "a" ⟨200, .ok ["a/x"], none, ""⟩
    ["a/x"] (by decide) rfl rfl rfl rfl (by decide) (by decide)

/-- C6: for a non-root path whose prefix listing succeeds empty, `lstat`
issues the HEAD probe of the exact key (the trace is exactly the listing
followed by the probe), and on the probe's response: 404 gives NotFound,
any other non-200 status gives a backend-status error carrying the status
code and response body, and 200 gives file metadata whose size is the
probe's `Content-Length` and whose modification time is parsed from its
`Last-Modified` header. -/
theorem c6_lstat_head_probe (be : Backend) (fs : S3FS) (name : String)
    (resp : ListResp)
    (hroot : normalizeName name ≠ ".")
    (hl : be.list (normalizeName name ++ "/") 1 = .ok resp)
    (hst : resp.status = 200)
    (hct : resp.contents = .ok [])
    (hcl : resp.closeErr = none) :
    (S3FS.lstat be fs name).2 =
      [.list (normalizeName name ++ "/") 1,
        .head (fs.urlPath (normalizeName name))] ∧
    ∀ h : HeadResp, be.head (fs.urlPath (normalizeName name)) = .ok h →
      (h.status = 404 → (S3FS.lstat be fs name).1 = .error .notExist) ∧
      (h.status ≠ 404 → h.status ≠ 200 →
        (S3FS.lstat be fs name).1 = .error (.respErr h.status h.body)) ∧
      (h.status = 200 →
        (S3FS.lstat be fs name).1 =
          .ok ⟨normalizeName name, h.contentLength, 0, h.lastModified.getD 0⟩) := by
  constructor
  · cases hh : be.head (fs.urlPath (normalizeName name)) with
    | error e => simp [S3FS.lstat, hroot, hl, hst, hct, hcl, hh]
    | ok h =>
      by_cases h404 : h.status = 404
      · simp [S3FS.lstat, hroot, hl, hst, hct, hcl, hh, h404]
      · by_cases h200 : h.status = 200 <;>
          simp [S3FS.lstat, hroot, hl, hst, hct, hcl, hh, h404, h200]
  · intro h hh
    refine ⟨fun h404 => ?_, fun h404 h200 => ?_, fun h200 => ?_⟩
    · simp [S3FS.lstat, hroot, hl, hst, hct, hcl, hh, h404]
    · simp [S3FS.lstat, hroot, hl, hst, hct, hcl, hh, h404, h200]
    · simp [S3FS.lstat, hroot, hl, hst, hct, hcl, hh, h200]

/-- C6 witness: empty listing under `a/`, HEAD answers 200 with
`Content-Length 7` and `Last-Modified 5`: `lstat("a")` issues the listing
then the probe and reports a 7-byte file modified at 5. -/
theorem c6_lstat_head_probe_w :
    (S3FS.lstat beOkEmpty fs0 "a").2 = [.list "a/" 1, .head "a"] ∧
    (S3FS.lstat beOkEmpty fs0 "a").1 = .ok ⟨"a", 7, 0, 5⟩ := by
  have h := c6_lstat_head_probe beOkEmpty fs0 "a" ⟨200, .ok [], none, ""⟩
      (by decide) rfl rfl rfl rfl
  exact ⟨h.1, (h.2 ⟨200, 7, some 5, ""⟩ rfl).2.2 rfl⟩

/-- C9 (amended): `Remove` issues exactly one delete for the mapped key
and, when the delete succeeds, closes the response body *without reading
(draining) any of it* — 0 bytes are ever read from the body; the result
reflects the delete's outcome, and on a successful delete any close error
is surfaced. -/
theorem c9_remove_contract (be : Backend) (fs : S3FS) (name : String) :
    drainedBytes (S3FS.Remove be fs name).2 = 0 ∧
    (∀ e, be.delete (fs.urlPath name) = .error e →
      S3FS.Remove be fs name = (some (.plain e), [.delete (fs.urlPath name)])) ∧
    (∀ b, be.delete (fs.urlPath name) = .ok b →
      (S3FS.Remove be fs name).2 = [.delete (fs.urlPath name), .closeBody] ∧
      (S3FS.Remove be fs name).1 = b.closeErr.map .plain) := by
  refine ⟨?_, fun e he => ?_, fun b hb => ?_⟩
  · cases hd : be.delete (fs.urlPath name) with
    | error e => simp [S3FS.Remove, hd, drainedBytes]
    | ok b => cases hc : b.closeErr <;> simp [S3FS.Remove, hd, hc, drainedBytes]
  · simp [S3FS.Remove, he]
  · cases hc : b.closeErr <;> simp [S3FS.Remove, hb, hc]

/-- C9 witness: a failing delete surfaces its error after the single
DELETE; a successful delete reads 0 body bytes. -/
theorem c9_remove_contract_w :
    S3FS.Remove beErr fs0 "k" =
      (some (.plain "boom"), [.delete (fs0.urlPath "k")]) ∧
    drainedBytes (S3FS.Remove beOkEmpty fs0 "k").2 = 0 := by
  exact ⟨(c9_remove_contract beErr fs0 "k").2.1 "boom" rfl,
    (c9_remove_contract beOkEmpty fs0 "k").1⟩

/-- C8 (amended): error wrapping is uneven across the adapter.  `Lstat`
(hence `Stat`) and `Create` wrap every error in an `os.PathError` with the
operation name and the resolved path; `Open` and `ReadDir` wrap only the
error of the call that initiates the backend request, returning body-read
(`ReadAll` / `Readdir`) errors unwrapped; `Remove` errors and the reader's
"must call Fetch before Seek" usage error are returned unwrapped. -/
theorem c8_error_wrapping (be : Backend) (fs : S3FS) (name : String)
    (plen : Nat) (f : EFF) :
    (∀ e t, S3FS.Lstat be fs name = (.error e, t) →
      ∃ m, e = .pathError "lstat" (fs.urlPath name) m) ∧
    (∀ e, S3FS.Create be fs name = .error e →
      ∃ m, e = .pathError "create" (fs.urlPath name) m) ∧
    (∀ e, be.get (fs.urlPath name) "" = .error e →
      (S3FS.Open be fs name).1 = .error (.pathError "open" (fs.urlPath name) e)) ∧
    (∀ r e, be.get (fs.urlPath name) "" = .ok r → r.readAll = .error e →
      (S3FS.Open be fs name).1 = .error (.plain e)) ∧
    (∀ e, be.newFile (fs.urlPath name) = .error e →
      S3FS.ReadDir be fs name = .error (.pathError "readdir" (fs.urlPath name) e)) ∧
    (∀ e, be.newFile (fs.urlPath name) = .ok (.error e) →
      S3FS.ReadDir be fs name = .error (.plain e)) ∧
    (∀ e, (S3FS.Remove be fs name).1 = some e → e.isWrapped = false) ∧
    (f.rc = none →
      (EFF.read be f plen).1.2 =
        some (.plain "s3vfs: must call Fetch before Seek")) := by
  refine ⟨?_, ?_, ?_, ?_, ?_, ?_, ?_, ?_⟩
  · intro e t h
    rcases hls : S3FS.lstat be fs name with ⟨res, tr⟩
    unfold S3FS.Lstat at h
    rw [hls] at h
    cases res with
    | error el =>
      simp only [Prod.mk.injEq, Except.error.injEq] at h
      exact ⟨el.msg, h.1.symm⟩
    | ok fi => simp at h
  · intro e h
    unfold S3FS.Create at h
    cases hc : be.create (fs.urlPath name) with
    | error e2 =>
      rw [hc] at h
      simp only [Except.error.injEq] at h
      exact ⟨e2, h.symm⟩
    | ok u => rw [hc] at h; simp at h
  · intro e hg
    simp [S3FS.Open, fsOpen, hg]
  · intro r e hg hr
    simp [S3FS.Open, fsOpen, hg, hr]
  · intro e hn
    simp [S3FS.ReadDir, hn]
  · intro e hn
    simp [S3FS.ReadDir, hn]
  · intro e h
    cases hd : be.delete (fs.urlPath name) with
    | error e2 =>
      simp only [S3FS.Remove, hd, Option.some.injEq] at h
      rw [← h]
      rfl
    | ok b =>
      cases hc : b.closeErr with
      | none => simp [S3FS.Remove, hd, hc] at h
      | some e2 =>
        simp only [S3FS.Remove, hd, hc, Option.some.injEq] at h
        rw [← h]
        rfl
  · intro h
    exact (read_no_stream be f plen h).1

/-- C8 witness: against the failing backend, `Open` and `ReadDir` errors
are wrapped with their operation and path, while the `Remove` error and a
no-window read error come back unwrapped. -/
theorem c8_error_wrapping_w :
    (S3FS.Open beErr fs0 "k").1 =
      .error (.pathError "open" (fs0.urlPath "k") "network down") ∧
    S3FS.ReadDir beErr fs0 "k" =
      .error (.pathError "readdir" (fs0.urlPath "k") "network down") ∧
    AdapterErr.isWrapped (.plain "boom") = false ∧
    (EFF.read beErr effInit 3).1.2 =
      some (.plain "s3vfs: must call Fetch before Seek") := by
  have h := c8_error_wrapping beErr fs0 "k" 3 effInit
  exact ⟨h.2.2.1 "network down" rfl, h.2.2.2.2.1 "network down" rfl,
    h.2.2.2.2.2.2.1 (.plain "boom") rfl, h.2.2.2.2.2.2.2 rfl⟩

/-- C1 (amended): with autofetch enabled and a fetch window established
(backing stream present, cursor non-negative as `bytes.Reader` guarantees),
a `Read` of `plen` bytes at current absolute offset `o` issues exactly one
ranged retrieval — `Fetch(o, o + plen + 4*plen)`, header
`bytes=o-(o+5*plen)` — when the implied span `[o, o+plen)` is not fully
inside the window, and no retrieval at all when it is.  In the initial
state (no window established) `Read` does *not* fetch: it fails with the
"must call Fetch before Seek" usage error from the offset-querying
`Seek(0, 1)`. -/
theorem c1_read_fetch_discipline (be : Backend) (f : EFF) (plen : Nat) :
    (f.rc = none →
      (EFF.read be f plen).1.2 =
        some (.plain "s3vfs: must call Fetch before Seek") ∧
      (EFF.read be f plen).2.2 = []) ∧
    (∀ rc : RC, f.rc = some rc → 0 ≤ rc.pos → f.autofetch = true →
      (f.isFetched (rc.pos + f.startByte) (rc.pos + f.startByte + (plen : Int)) = false →
        (EFF.read be f plen).2.2 =
          [autoFetchOp f (rc.pos + f.startByte) plen]) ∧
      (f.isFetched (rc.pos + f.startByte) (rc.pos + f.startByte + (plen : Int)) = true →
        (EFF.read be f plen).2.2 = [])) := by
  refine ⟨read_no_stream be f plen, ?_⟩
  intro rc hrc hpos haf
  obtain ⟨sz, pos⟩ := rc
  obtain ⟨nm, fsv, sB, eB, orc, af⟩ := f
  dsimp only at hrc haf hpos ⊢
  subst hrc
  subst haf
  have hseek : EFF.seek ⟨nm, fsv, sB, eB, some ⟨sz, pos⟩, true⟩ 0 1 =
      (.ok (pos + sB), ⟨nm, fsv, sB, eB, some ⟨sz, pos⟩, true⟩) := by
    simp [EFF.seek, RC.seek, RC.seekAbs, show ¬ (pos + 0 < 0) by omega,
      show ¬ (pos < 0) by omega]
  constructor
  · intro hnf
    have hnf2 : EFF.isFetched ⟨nm, fsv, sB, eB, some ⟨sz, pos⟩, true⟩
        (pos + sB)
        (pos + sB + (plen : Int) +
          (pos + sB + (plen : Int) - (pos + sB)) * 4) = false := by
      rw [Bool.eq_false_iff, Ne, isFetched_iff]
      rw [Bool.eq_false_iff, Ne, isFetched_iff] at hnf
      intro ⟨h1, h2, h3, h4⟩
      exact hnf ⟨h1, by omega, by simpa using h3, by simp at h4 ⊢; omega⟩
    unfold EFF.read
    rw [hseek]
    dsimp only
    rw [hnf]
    simp only [Bool.false_eq_true, if_false, if_true]
    rcases hfe : EFF.fetch be ⟨nm, fsv, sB, eB, some ⟨sz, pos⟩, true⟩
        (pos + sB)
        (pos + sB + (plen : Int) +
          (pos + sB + (plen : Int) - (pos + sB)) * 4)
      with ⟨res, f2, tr⟩
    have htr := fetch_trace be ⟨nm, fsv, sB, eB, some ⟨sz, pos⟩, true⟩
      (pos + sB)
      (pos + sB + (plen : Int) +
        (pos + sB + (plen : Int) - (pos + sB)) * 4) hnf2
    rw [hfe] at htr
    dsimp only at htr
    have harg : pos + sB + (plen : Int) +
        (pos + sB + (plen : Int) - (pos + sB)) * 4 =
        pos + sB + (plen : Int) + 4 * (plen : Int) := by ring
    rw [harg] at htr
    cases res with
    | error e => simpa [autoFetchOp] using htr
    | ok u =>
      cases hrc2 : f2.rc with
      | none => simpa [hrc2, autoFetchOp] using htr
      | some rc2 => simpa [hrc2, autoFetchOp] using htr
  · intro ht
    unfold EFF.read
    rw [hseek]
    dsimp only
    rw [ht]
    simp

/-- C1 witness: on a reader holding `[0, 10)` at offset 0 a 20-byte read
autofetches with exactly one GET for `bytes=0-100`; and on the fresh
reader a read issues no fetch at all. -/
theorem c1_read_fetch_discipline_w :
    (EFF.read beErr effWin 20).2.2 = [autoFetchOp effWin 0 20] ∧
    (EFF.read beErr effInit 3).2.2 = [] := by
  refine ⟨?_, ((c1_read_fetch_discipline beErr effInit 3).1 rfl).2⟩
  exact ((c1_read_fetch_discipline beErr effWin 20).2 ⟨10, 0⟩ rfl
    (by decide) rfl).1 (by decide)

end S3v

